import Mathlib

/-!
Shallow embedding of `sulfate-xml` (src/src/lib.rs): a minimal, namespace-aware
XML element tree with an event-driven parser (`Element::from_stream`) and a
recursive serializer (`Element::serialize`), plus the `Display` formatting
wrapper.

Conventions of the embedding:
* Rust `Cow<str>` values are plain `String`s (ownership is irrelevant to the
  observable behaviour).
* The Rust struct fields `namespace` and `prefix` are Lean keywords, so they
  are embedded as `namespace_uri` and `pfx`.
* The external collaborator (the `xml-rs` tokenizer/emitter) is out of scope of
  the repository; the parser consumes a list of reader events and the
  serializer produces a list of writer directives.  Where a claim needs the
  collaborator itself (the round trip), it is modelled from the spec as a
  faithful event transport.
* The `Vec` working stack of the parser is a Lean `List` whose HEAD is the top
  of the stack (the end of the Rust `Vec`); the index loop
  `for i in (0..len).rev()` that scans from the top therefore becomes a scan
  from the head of the list.
* A Rust `assert!` failure (abrupt panic) is a distinct outcome constructor,
  never an error value.
-/

namespace SulfateXml

/-- `struct Name<'a>` (lib.rs:31): local name, optional namespace URL, optional
prefix.  `namespace` / `prefix` are renamed (Lean keywords). -/
structure Name where
  local_name : String
  namespace_uri : Option String
  pfx : Option String
  deriving Repr, DecidableEq

/-- `impl PartialEq for Name` (lib.rs:80-84): compares only `local_name` and
`namespace`, ignoring `prefix`. -/
def Name.peq (a b : Name) : Bool :=
  a.local_name == b.local_name && a.namespace_uri == b.namespace_uri

/-- `Name::new_no_ns` (lib.rs:44). -/
def Name.new_no_ns (local_name : String) : Name :=
  { local_name := local_name, namespace_uri := none, pfx := none }

/-- `Name::new_default_ns` (lib.rs:53). -/
def Name.new_default_ns (local_name ns : String) : Name :=
  { local_name := local_name, namespace_uri := some ns, pfx := none }

/-- `Name::new` (lib.rs:65). -/
def Name.new (local_name ns p : String) : Name :=
  { local_name := local_name, namespace_uri := some ns, pfx := some p }

mutual
/-- `struct Element<'a>` (lib.rs:22): a name plus ordered content. -/
inductive Element where
  | mk (name : Name) (content : List ElemContent)
  deriving Repr
/-- `enum ElemContent<'a>` (lib.rs:98): text run or child element. -/
inductive ElemContent where
  | Text (text : String)
  | Child (child : Element)
  deriving Repr
end

/-- Field accessor for `Element.name`. -/
def Element.name : Element → Name
  | .mk n _ => n

/-- Field accessor for `Element.content`. -/
def Element.content : Element → List ElemContent
  | .mk _ c => c

/-- `Element::push_text` (lib.rs:215-217): append a `Text` content item. -/
def Element.push_text (e : Element) (content : String) : Element :=
  .mk e.name (e.content ++ [.Text content])

/-- `Element::push_child` (lib.rs:220-222): append a `Child` content item. -/
def Element.push_child (e : Element) (child : Element) : Element :=
  .mk e.name (e.content ++ [.Child child])

/-- `Element::first_child_where`'s loop body (lib.rs:268-276): scan the content
list in order, skipping `Text` items, returning the first `Child` whose element
satisfies the predicate. -/
def first_child_loop (pred : Element → Bool) : List ElemContent → Option Element
  | [] => none
  | .Text _ :: rest => first_child_loop pred rest
  | .Child ch :: rest => if pred ch then some ch else first_child_loop pred rest

/-- `Element::first_child_where` (lib.rs:265-277). -/
def Element.first_child_where (e : Element) (pred : Element → Bool) : Option Element :=
  first_child_loop pred e.content

/-! ## Parser (`Element::from_stream`, lib.rs:153-204) -/

/-- `xml::common::TextPosition` (used at lib.rs:202). -/
structure TextPosition where
  row : Nat
  column : Nat
  deriving Repr, DecidableEq

/-- A `xml::reader` error as the parser observes it: a source position and a
message.  Stream faults from the collaborator arrive already in this shape and
are propagated unchanged (`event?`, lib.rs:160); the exhaustion error is built
at lib.rs:202 from position `{row: 0, column: 0}` and the message
`"empty stream"`. -/
structure XmlError where
  pos : TextPosition
  msg : String
  deriving Repr, DecidableEq

/-- The reader events `Element::from_stream` distinguishes (lib.rs:162-196):
start element, end element, character data; every other event kind falls into
the wildcard arm and is ignored, abstracted here as `otherEvent`. -/
inductive ReaderEvent where
  | startElement (name : Name)
  | endElement (name : Name)
  | characters (text : String)
  | otherEvent
  deriving Repr

/-- The parser's mutable locals (lib.rs:156-157): the working stack
`elem_stack` (head of the list = top of the stack = end of the `Vec`) and the
candidate result `ret`. -/
structure ParseState where
  elem_stack : List Element
  ret : Option Element
  deriving Repr

/-- Outcome of one loop iteration: either the updated state, or an abrupt
panic (Rust `assert!` failure), which is not a returned error value. -/
inductive StepResult where
  | next (st : ParseState)
  | panicked (msg : String)
  deriving Repr

/-- The panic message of `assert!(ret.is_none())` (lib.rs:185). -/
def assertRetNoneMsg : String := "assertion failed: ret.is_none()"

/-- The `for i in (0..elem_stack.len()).rev()` scan of the end-element arm
(lib.rs:174-179): walk the stack from the top (list head) toward the bottom,
remove the first element whose name `PartialEq`-matches the ended tag's name,
and return it together with the remaining stack; `none` when nothing matches. -/
def removeNearest (name : Name) : List Element → Option (Element × List Element)
  | [] => none
  | e :: rest =>
    if Name.peq e.name name then
      some (e, rest)
    else
      match removeNearest name rest with
      | some (child, rest2) => some (child, e :: rest2)
      | none => none

/-- One iteration of the event loop of `Element::from_stream`
(lib.rs:162-196), acting on one already-successfully-read event. -/
def processEvent (st : ParseState) (ev : ReaderEvent) : StepResult :=
  match ev with
  | .startElement name =>
    .next { st with elem_stack := Element.mk name [] :: st.elem_stack }
  | .endElement name =>
    match removeNearest name st.elem_stack with
    | none => .next st
    | some (child, rest) =>
      match rest with
      | head :: tail =>
        .next { st with elem_stack := head.push_child child :: tail }
      | [] =>
        if st.ret.isSome then
          .panicked assertRetNoneMsg
        else
          .next { elem_stack := [], ret := some child }
  | .characters text =>
    match st.elem_stack with
    | head :: tail => .next { st with elem_stack := head.push_text text :: tail }
    | [] => .next st
  | .otherEvent => .next st

/-- Overall outcome of `Element::from_stream`: a root element, a returned
error value, or an abrupt panic. -/
inductive ParseResult where
  | ok (root : Element)
  | err (e : XmlError)
  | panicked (msg : String)
  deriving Repr

/-- Run the event loop over a list of pure events (no stream faults),
threading the state; stops at the first panic. -/
def runEvents : List ReaderEvent → ParseState → StepResult
  | [], st => .next st
  | ev :: rest, st =>
    match processEvent st ev with
    | .next st2 => runEvents rest st2
    | .panicked msg => .panicked msg

/-- The check after stream exhaustion (lib.rs:199-203): a recorded root is
returned; otherwise the zero-position `"empty stream"` error. -/
def finishParse (st : ParseState) : ParseResult :=
  match st.ret with
  | some head => .ok head
  | none => .err { pos := { row := 0, column := 0 }, msg := "empty stream" }

/-- `Element::from_stream` (lib.rs:153-204) over an event stream.  Each stream
item is either a successfully tokenized event or a collaborator fault; a fault
is propagated unchanged by the `?` at lib.rs:160. -/
def Element.from_stream (stream : List (Except XmlError ReaderEvent)) : ParseResult :=
  go stream { elem_stack := [], ret := none }
where
  /-- The `for event in reader` loop plus the final check. -/
  go : List (Except XmlError ReaderEvent) → ParseState → ParseResult
    | [], st => finishParse st
    | item :: rest, st =>
      match item with
      | .error e => .err e
      | .ok ev =>
        match processEvent st ev with
        | .next st2 => go rest st2
        | .panicked msg => .panicked msg

/-! ## Serializer (`Element::serialize`, lib.rs:225-255) -/

/-- A namespace declaration attached to a start-element directive:
`.ns(prefix, ns)` is `pfx := some prefix`, `.default_ns(ns)` is
`pfx := none`. -/
structure NsDecl where
  pfx : Option String
  uri : String
  deriving Repr, DecidableEq

/-- The writer directives `Element::serialize` emits: a start-element with the
tag name exactly as passed to `XmlEvent::start_element` plus an optional
namespace declaration, character data, and the (nameless) end-element
directive `XmlEvent::end_element()`. -/
inductive WriterEvent where
  | startElement (tagName : String) (decl : Option NsDecl)
  | characters (text : String)
  | endElement
  deriving Repr, DecidableEq

mutual
/-- `Element::serialize` (lib.rs:225-255).  The `sink` accumulates the
directives written so far, in order, mirroring the sequential writes into the
`EventWriter`. -/
def Element.serialize : Element → List WriterEvent → List WriterEvent
  | .mk name content, sink =>
    let sink1 :=
      match name.namespace_uri, name.pfx with
      | some ns, some p =>
        sink ++ [.startElement (p ++ ":" ++ name.local_name) (some { pfx := some p, uri := ns })]
      | some ns, none =>
        sink ++ [.startElement name.local_name (some { pfx := none, uri := ns })]
      | _, _ =>
        sink ++ [.startElement name.local_name none]
    serializeContent content sink1 ++ [.endElement]
/-- The `for item in &self.content` loop of `Element::serialize`
(lib.rs:241-250). -/
def serializeContent : List ElemContent → List WriterEvent → List WriterEvent
  | [], sink => sink
  | .Text text :: rest, sink => serializeContent rest (sink ++ [.characters text])
  | .Child child :: rest, sink => serializeContent rest (child.serialize sink)
end

/-! ## Formatting wrapper (`impl fmt::Display for Element`, lib.rs:287-301)

The wrapper serializes into an in-memory byte buffer and decodes it as UTF-8.
The two fallible steps live in the collaborator (the emitter can fault while
writing, the buffer can fail to decode); what belongs to this repository is
how those faults reach the caller: both are mapped through
`.map_err(|_| fmt::Error)` (lib.rs:295 and lib.rs:297).  The collaborator
outcomes are therefore parameters here, and the fault types are abstract
(opaque payload strings). -/

/-- A collaborator emission fault (`xml::writer::Error`), abstract. -/
structure WriterFault where
  payload : String
  deriving Repr, DecidableEq

/-- A UTF-8 decoding fault (`std::string::FromUtf8Error`), abstract. -/
structure Utf8Fault where
  payload : String
  deriving Repr, DecidableEq

/-- Rust's `std::fmt::Error`: a unit struct carrying no information. -/
structure FmtError where
  deriving Repr, DecidableEq

/-- The `.map_err(|_| fmt::Error)` applied to the serialization result
(lib.rs:295). -/
def coerceWriterFault (_e : WriterFault) : FmtError := {}

/-- The `.map_err(|_| fmt::Error)` applied to the UTF-8 decoding result
(lib.rs:297). -/
def coerceUtf8Fault (_e : Utf8Fault) : FmtError := {}

/-- The body of `fmt` (lib.rs:288-300): run the serializer into a byte buffer,
then decode the buffer, mapping either failure to `fmt::Error`.  `ser` is the
outcome of `self.serialize(&mut writer)` together with the buffer contents on
success, `decode` is `String::from_utf8`. -/
def displayFmt (ser : Except WriterFault (List Nat))
    (decode : List Nat → Except Utf8Fault String) : Except FmtError String :=
  match ser with
  | .error e => .error (coerceWriterFault e)
  | .ok buf =>
    match decode buf with
    | .error e => .error (coerceUtf8Fault e)
    | .ok result => .ok result

/-! ## The collaborator as an event transport (modelled from the spec) -/

/-- Modelled from the spec: the external tokenizer/emitter collaborator
(spec §1, §6), which is not part of this repository.  Spec §6 assumes a
push-based emitter accepting `start-element(name, optional
namespace-declaration)`, `characters(text)`, `end-element()` and a pull-based
event source yielding `StartElement{qualified name}`, `EndElement{qualified
name}`, `Characters{text}`.  This function is the faithful transport between
the two: the reader reports a started element's qualified name as written
(the tag resolved against the declaration written on it), reports the ended
element's qualified name from the emitter's open-element bookkeeping, and
passes character data through verbatim. -/
def readName (tagName : String) (decl : Option NsDecl) : Name :=
  match decl with
  | some d =>
    match d.pfx with
    | some p =>
      { local_name := tagName.drop (p.length + 1), namespace_uri := some d.uri, pfx := some p }
    | none => { local_name := tagName, namespace_uri := some d.uri, pfx := none }
  | none => { local_name := tagName, namespace_uri := none, pfx := none }

/-- Modelled from the spec: the transport of emitted writer directives back
into reader events (spec §6).  `pending` is the emitter's stack of currently
open element names, used to give each nameless `end-element()` directive the
qualified name the reader will report for it. -/
def transport : List WriterEvent → List Name → List ReaderEvent
  | [], _ => []
  | .startElement tagName decl :: rest, pending =>
    let n := readName tagName decl
    .startElement n :: transport rest (n :: pending)
  | .characters text :: rest, pending => .characters text :: transport rest pending
  | .endElement :: rest, pending =>
    match pending with
    | n :: pending2 => .endElement n :: transport rest pending2
    | [] => []

/-- The name the reader delivers for an element serialized from name `n`:
unchanged when a namespace is present; with the cosmetic `prefix` dropped when
there is no namespace (the serializer's wildcard arm, lib.rs:236-238, writes
only the local name then). -/
def readerView (n : Name) : Name :=
  match n.namespace_uri with
  | some _ => n
  | none => { n with pfx := none }

mutual
/-- The element the parser rebuilds from a serialized tree: every name is
replaced by its `readerView`. -/
def rdElem : Element → Element
  | .mk n content => .mk (readerView n) (rdContent content)
/-- `rdElem` mapped over a content list. -/
def rdContent : List ElemContent → List ElemContent
  | [] => []
  | .Text text :: rest => .Text text :: rdContent rest
  | .Child child :: rest => .Child (rdElem child) :: rdContent rest
end

mutual
/-- Structural equality of elements in the sense of spec §8's round-trip
property: equal names per `Name`'s prefix-insensitive `PartialEq`, and
pointwise equal content sequences (same kinds, same order, same text runs). -/
def structEq : Element → Element → Bool
  | .mk n1 c1, .mk n2 c2 => Name.peq n1 n2 && contentEq c1 c2
/-- Pointwise structural equality of content lists. -/
def contentEq : List ElemContent → List ElemContent → Bool
  | [], [] => true
  | .Text t1 :: r1, .Text t2 :: r2 => t1 == t2 && contentEq r1 r2
  | .Child e1 :: r1, .Child e2 :: r2 => structEq e1 e2 && contentEq r1 r2
  | _, _ => false
end

/-- The start-element directive `Element::serialize` writes for a given name
(the 3-way rule of lib.rs:226-239), factored out for stating lemmas. -/
def startEventOf (n : Name) : WriterEvent :=
  match n.namespace_uri, n.pfx with
  | some ns, some p =>
    .startElement (p ++ ":" ++ n.local_name) (some { pfx := some p, uri := ns })
  | some ns, none => .startElement n.local_name (some { pfx := none, uri := ns })
  | _, _ => .startElement n.local_name none

mutual
/-- The reader-event sequence that the transported serializer output of an
element amounts to (proved below, not assumed): start, content, end. -/
def readerEvents (e : Element) : List ReaderEvent :=
  match e with
  | .mk n c =>
    .startElement (readerView n) :: (readerEventsContent c ++ [.endElement (readerView n)])
/-- `readerEvents` over a content list. -/
def readerEventsContent : List ElemContent → List ReaderEvent
  | [] => []
  | .Text t :: rest => .characters t :: readerEventsContent rest
  | .Child child :: rest => readerEvents child ++ readerEventsContent rest
end

/-! ## Helper lemmas -/

/-- `Name.peq` is reflexive. -/
theorem Name.peq_refl (n : Name) : Name.peq n n = true := by
  simp [Name.peq]

/-- If nothing in `pre` matches and `x` matches, the top-down scan removes
exactly `x` and keeps everything else in order. -/
theorem removeNearest_eq_of_found (n : Name) (pre post : List Element) (x : Element)
    (hpre : ∀ y ∈ pre, Name.peq y.name n = false)
    (hx : Name.peq x.name n = true) :
    removeNearest n (pre ++ x :: post) = some (x, pre ++ post) := by
  induction pre with
  | nil => simp [removeNearest, hx]
  | cons y pre ih =>
    have hy : Name.peq y.name n = false := hpre y (by simp)
    have ihh := ih (fun z hz => hpre z (by simp [hz]))
    simp [removeNearest, hy, ihh]

/-- If nothing on the stack matches, the scan removes nothing. -/
theorem removeNearest_eq_none (n : Name) (stack : List Element)
    (h : ∀ y ∈ stack, Name.peq y.name n = false) :
    removeNearest n stack = none := by
  induction stack with
  | nil => rfl
  | cons y rest ih =>
    have hy : Name.peq y.name n = false := h y (by simp)
    have ihh := ih (fun z hz => h z (by simp [hz]))
    simp [removeNearest, hy, ihh]

/-- Running `from_stream` on a fault-free stream is the event loop followed by
the exhaustion check, unless a panic aborts it. -/
theorem from_stream_go_pure (evs : List ReaderEvent) (st : ParseState) :
    Element.from_stream.go (evs.map Except.ok) st =
      match runEvents evs st with
      | .next st2 => finishParse st2
      | .panicked msg => ParseResult.panicked msg := by
  induction evs generalizing st with
  | nil => rfl
  | cons ev rest ih =>
    show (match processEvent st ev with
          | .next st2 => Element.from_stream.go (rest.map Except.ok) st2
          | .panicked msg => ParseResult.panicked msg) = _
    cases h : processEvent st ev with
    | next st2 => simp [runEvents, h, ih]
    | panicked msg => simp [runEvents, h]

/-- `first_child_where`'s loop is `find?` over the child elements of the
content list. -/
theorem first_child_loop_eq (pred : Element → Bool) (l : List ElemContent) :
    first_child_loop pred l =
      (l.filterMap fun item =>
        match item with
        | .Child child => some child
        | .Text _ => none).find? pred := by
  induction l with
  | nil => rfl
  | cons item rest ih =>
    cases item with
    | Text t => simpa [first_child_loop] using ih
    | Child ch =>
      by_cases h : pred ch = true
      · simp [first_child_loop, h, List.find?]
      · simp at h
        simp [first_child_loop, h, List.find?, ih]

/-! ## Claims -/

/-- Claim C4: `Name` equality holds iff `local_name` and `namespace` both
match, and the `prefix` field never affects it: two names differing only in
prefix are equal, two names differing in `namespace` or `local_name` are
unequal (the latter is the contrapositive of the iff). -/
theorem c4_name_eq_ignores_pfx (a b : Name) (p q : Option String) :
    (Name.peq a b = true ↔
      a.local_name = b.local_name ∧ a.namespace_uri = b.namespace_uri) ∧
    Name.peq { a with pfx := p } { a with pfx := q } = true := by
  constructor
  · simp [Name.peq]
  · simp [Name.peq]

/-- Claim C3: an end-element event removes exactly the nearest (scanning from
the top of the stack) element whose name matches the ended tag's name; the
elements above it stay on the stack, and when the remaining stack is non-empty
the removed element is appended as a `Child` of the new top.  (When the stack
empties, the root/panic branch of lib.rs:184-187 runs instead.) -/
theorem c3_end_element_nearest_match (n : Name) (pre post : List Element)
    (x : Element) (r : Option Element)
    (hpre : ∀ y ∈ pre, Name.peq y.name n = false)
    (hx : Name.peq x.name n = true) :
    processEvent { elem_stack := pre ++ x :: post, ret := r } (.endElement n) =
      match pre ++ post with
      | [] =>
        if r.isSome then .panicked assertRetNoneMsg
        else .next { elem_stack := [], ret := some x }
      | head :: tail => .next { elem_stack := head.push_child x :: tail, ret := r } := by
  have hrw := removeNearest_eq_of_found n pre post x hpre hx
  cases h : pre ++ post with
  | nil => simp [processEvent, hrw, h]
  | cons head tail => simp [processEvent, hrw, h]

/-- Witness for C3 at a concrete input: stack `[<b> (top), <a>]`, end tag
`a`; the scan skips `b`, removes `a`, and `a` becomes a child of `b`. -/
theorem c3_witness :
    (∀ y ∈ [Element.mk (Name.new_no_ns "b") []],
      Name.peq y.name (Name.new_no_ns "a") = false) ∧
    Name.peq (Element.mk (Name.new_no_ns "a") []).name (Name.new_no_ns "a") = true ∧
    processEvent
        { elem_stack := [Element.mk (Name.new_no_ns "b") [],
                         Element.mk (Name.new_no_ns "a") []],
          ret := none }
        (.endElement (Name.new_no_ns "a")) =
      .next { elem_stack := [Element.mk (Name.new_no_ns "b")
                [.Child (Element.mk (Name.new_no_ns "a") [])]], ret := none } := by
  refine ⟨by decide, by decide, ?_⟩
  have h := c3_end_element_nearest_match (Name.new_no_ns "a")
    [Element.mk (Name.new_no_ns "b") []] [] (Element.mk (Name.new_no_ns "a") []) none
    (by decide) (by decide)
  simpa [Element.push_child, Element.name, Element.content] using h

/-- Claim C9: an end-element event whose name matches nothing on the working
stack is silently ignored: no panic, no removal, state unchanged. -/
theorem c9_unmatched_end_ignored (n : Name) (stack : List Element) (r : Option Element)
    (h : ∀ y ∈ stack, Name.peq y.name n = false) :
    processEvent { elem_stack := stack, ret := r } (.endElement n) =
      .next { elem_stack := stack, ret := r } := by
  simp [processEvent, removeNearest_eq_none n stack h]

/-- Witness for C9 at a concrete input: stack `[<b>]`, end tag `a`. -/
theorem c9_witness :
    (∀ y ∈ [Element.mk (Name.new_no_ns "b") []],
      Name.peq y.name (Name.new_no_ns "a") = false) ∧
    processEvent
        { elem_stack := [Element.mk (Name.new_no_ns "b") []], ret := none }
        (.endElement (Name.new_no_ns "a")) =
      .next { elem_stack := [Element.mk (Name.new_no_ns "b") []], ret := none } :=
  ⟨by decide,
   c9_unmatched_end_ignored (Name.new_no_ns "a")
     [Element.mk (Name.new_no_ns "b") []] none (by decide)⟩

/-- Claim C8: a characters event with a non-empty stack appends one `Text`
item holding exactly the event's text to the top element; with an empty stack
it is a no-op; and two successive text events yield two separate `Text` items
(never coalesced). -/
theorem c8_characters_append (text : String) (top : Element) (tail : List Element)
    (r : Option Element) :
    processEvent { elem_stack := top :: tail, ret := r } (.characters text) =
      .next { elem_stack := Element.mk top.name (top.content ++ [.Text text]) :: tail,
              ret := r } ∧
    processEvent { elem_stack := [], ret := r } (.characters text) =
      .next { elem_stack := [], ret := r } ∧
    (∀ t2 : String,
      runEvents [.characters text, .characters t2] { elem_stack := top :: tail, ret := r } =
        .next { elem_stack :=
          Element.mk top.name (top.content ++ [.Text text, .Text t2]) :: tail, ret := r }) := by
  refine ⟨rfl, rfl, fun t2 => ?_⟩
  simp [runEvents, processEvent, Element.push_text, Element.name, Element.content]

/-- Claim C6: on stream exhaustion with no root produced, `from_stream` fails
with the `"empty stream"` error whose position is zeroed; with a root
produced, that root is returned. -/
theorem c6_exhaustion (stream : List ReaderEvent) (st2 : ParseState)
    (h : runEvents stream { elem_stack := [], ret := none } = .next st2) :
    (st2.ret = none →
      Element.from_stream (stream.map Except.ok) =
        .err { pos := { row := 0, column := 0 }, msg := "empty stream" }) ∧
    (∀ root, st2.ret = some root →
      Element.from_stream (stream.map Except.ok) = .ok root) := by
  constructor
  · intro hret
    show Element.from_stream.go (stream.map Except.ok) _ = _
    rw [from_stream_go_pure, h]
    simp [finishParse, hret]
  · intro root hret
    show Element.from_stream.go (stream.map Except.ok) _ = _
    rw [from_stream_go_pure, h]
    simp [finishParse, hret]

/-- Witness for C6 at concrete inputs: the empty stream yields the
zero-position error, and the stream `<a></a>` yields the root `a`. -/
theorem c6_witness :
    runEvents [] { elem_stack := [], ret := none } =
      .next { elem_stack := [], ret := none } ∧
    Element.from_stream (([] : List ReaderEvent).map Except.ok) =
      .err { pos := { row := 0, column := 0 }, msg := "empty stream" } ∧
    runEvents [.startElement (Name.new_no_ns "a"), .endElement (Name.new_no_ns "a")]
        { elem_stack := [], ret := none } =
      .next { elem_stack := [], ret := some (Element.mk (Name.new_no_ns "a") []) } ∧
    Element.from_stream
        ([ReaderEvent.startElement (Name.new_no_ns "a"),
          ReaderEvent.endElement (Name.new_no_ns "a")].map Except.ok) =
      .ok (Element.mk (Name.new_no_ns "a") []) := by
  have hrun : runEvents [.startElement (Name.new_no_ns "a"), .endElement (Name.new_no_ns "a")]
      { elem_stack := [], ret := none } =
      .next { elem_stack := [], ret := some (Element.mk (Name.new_no_ns "a") []) } := by
    simp [runEvents, processEvent, removeNearest, Name.peq, Element.name, Name.new_no_ns]
  refine ⟨rfl, ?_, hrun, ?_⟩
  · exact (c6_exhaustion [] { elem_stack := [], ret := none } rfl).1 rfl
  · exact (c6_exhaustion
      [.startElement (Name.new_no_ns "a"), .endElement (Name.new_no_ns "a")]
      { elem_stack := [], ret := some (Element.mk (Name.new_no_ns "a") []) } hrun).2
      (Element.mk (Name.new_no_ns "a") []) rfl

/-- Claim C1, counterexample: on the stream `<a></a><b></b>` the second
top-level element completes while the stack is empty with a root already
recorded, and the parser terminates abruptly through the `assert!` panic — it
does not return an error value (the outcome is `panicked`, not `err`). -/
theorem c1_counterexample :
    Element.from_stream
        ([ReaderEvent.startElement (Name.new_no_ns "a"),
          ReaderEvent.endElement (Name.new_no_ns "a"),
          ReaderEvent.startElement (Name.new_no_ns "b"),
          ReaderEvent.endElement (Name.new_no_ns "b")].map Except.ok) =
      .panicked assertRetNoneMsg := by
  show Element.from_stream.go _ _ = _
  rw [from_stream_go_pure]
  simp [runEvents, processEvent, removeNearest, Name.peq, Element.name,
    Name.new_no_ns, assertRetNoneMsg]

/-- Claim C1 as amended: when an end-element event completes a second
top-level element — the matched element is removed leaving the stack empty
while `ret` already holds a root — the parser terminates abruptly via the
`assert!(ret.is_none())` panic; it does not return an error value. -/
theorem c1_amended_second_root_panics (st : ParseState) (n : Name) (x : Element)
    (root : Element)
    (hret : st.ret = some root)
    (hrm : removeNearest n st.elem_stack = some (x, [])) :
    processEvent st (.endElement n) = .panicked assertRetNoneMsg := by
  simp [processEvent, hrm, hret]

/-- Witness for the amended C1 at a concrete input: stack `[<b>]`, recorded
root `<a>`, end tag `b`. -/
theorem c1_witness :
    ({ elem_stack := [Element.mk (Name.new_no_ns "b") []],
       ret := some (Element.mk (Name.new_no_ns "a") []) } : ParseState).ret =
      some (Element.mk (Name.new_no_ns "a") []) ∧
    removeNearest (Name.new_no_ns "b") [Element.mk (Name.new_no_ns "b") []] =
      some (Element.mk (Name.new_no_ns "b") [], []) ∧
    processEvent
        { elem_stack := [Element.mk (Name.new_no_ns "b") []],
          ret := some (Element.mk (Name.new_no_ns "a") []) }
        (.endElement (Name.new_no_ns "b")) =
      .panicked assertRetNoneMsg := by
  refine ⟨rfl, by simp [removeNearest, Name.peq, Element.name, Name.new_no_ns], ?_⟩
  exact c1_amended_second_root_panics
    { elem_stack := [Element.mk (Name.new_no_ns "b") []],
      ret := some (Element.mk (Name.new_no_ns "a") []) }
    (Name.new_no_ns "b") (Element.mk (Name.new_no_ns "b") [])
    (Element.mk (Name.new_no_ns "a") [])
    rfl (by simp [removeNearest, Name.peq, Element.name, Name.new_no_ns])

/-- Claim C7, counterexample: a collaborator serialization fault and a UTF-8
decoding fault reach the caller of the `Display` impl as the very same
`fmt::Error` value — the two failure modes cannot be told apart. -/
theorem c7_counterexample :
    displayFmt (.error { payload := "emitter fault" }) (fun _ => .ok "") =
      displayFmt (.ok []) (fun _ => .error { payload := "invalid utf8" }) := rfl

/-- Claim C7 as amended: both a serialization failure and a text-decoding
failure are coerced by `.map_err(|_| fmt::Error)` into the same opaque,
information-free `fmt::Error`; the caller cannot distinguish a
`TextDecodingFault` from a lower-level serialization fault. -/
theorem c7_amended_faults_indistinguishable (w : WriterFault) (u : Utf8Fault)
    (buf : List Nat) (decode : List Nat → Except Utf8Fault String)
    (hdec : decode buf = .error u) :
    displayFmt (.error w) decode = .error {} ∧
    displayFmt (.ok buf) decode = .error {} ∧
    coerceWriterFault w = coerceUtf8Fault u := by
  refine ⟨rfl, ?_, rfl⟩
  simp [displayFmt, hdec, coerceUtf8Fault]

/-- Witness for the amended C7 at concrete faults. -/
theorem c7_witness :
    (fun _ => (.error { payload := "invalid utf8" } : Except Utf8Fault String))
        ([] : List Nat) = .error { payload := "invalid utf8" } ∧
    displayFmt (.error { payload := "emitter fault" })
        (fun _ => .error { payload := "invalid utf8" }) = .error {} ∧
    displayFmt (.ok ([] : List Nat))
        (fun _ => .error { payload := "invalid utf8" }) = .error {} ∧
    coerceWriterFault { payload := "emitter fault" } =
      coerceUtf8Fault { payload := "invalid utf8" } :=
  ⟨rfl,
   (c7_amended_faults_indistinguishable { payload := "emitter fault" }
     { payload := "invalid utf8" } []
     (fun _ => .error { payload := "invalid utf8" }) rfl).1,
   (c7_amended_faults_indistinguishable { payload := "emitter fault" }
     { payload := "invalid utf8" } []
     (fun _ => .error { payload := "invalid utf8" }) rfl).2.1,
   (c7_amended_faults_indistinguishable { payload := "emitter fault" }
     { payload := "invalid utf8" } []
     (fun _ => .error { payload := "invalid utf8" }) rfl).2.2⟩

/-- Claim C10: `first_child_where` is exactly `find?` over the child elements
of the content list in document order — `Text` items are filtered out before
the predicate is ever consulted, and the result is `none` iff no child
element satisfies it. -/
theorem c10_first_child_where_eq_find (e : Element) (pred : Element → Bool) :
    e.first_child_where pred =
      (e.content.filterMap fun item =>
        match item with
        | .Child child => some child
        | .Text _ => none).find? pred :=
  first_child_loop_eq pred e.content


mutual
/-- `Element.serialize` only appends to the sink. -/
theorem serialize_acc (e : Element) (sink : List WriterEvent) :
    e.serialize sink = sink ++ e.serialize [] := by
  cases e with
  | mk n c =>
    cases hns : n.namespace_uri with
    | none =>
      simp only [Element.serialize, hns]
      rw [serializeContent_acc c (sink ++ [WriterEvent.startElement n.local_name none]),
        serializeContent_acc c ([] ++ [WriterEvent.startElement n.local_name none])]
      simp
    | some ns =>
      cases hp : n.pfx with
      | none =>
        simp only [Element.serialize, hns, hp]
        rw [serializeContent_acc c
            (sink ++ [WriterEvent.startElement n.local_name (some { pfx := none, uri := ns })]),
          serializeContent_acc c
            ([] ++ [WriterEvent.startElement n.local_name (some { pfx := none, uri := ns })])]
        simp
      | some p =>
        simp only [Element.serialize, hns, hp]
        rw [serializeContent_acc c
            (sink ++ [WriterEvent.startElement (p ++ ":" ++ n.local_name)
              (some { pfx := some p, uri := ns })]),
          serializeContent_acc c
            ([] ++ [WriterEvent.startElement (p ++ ":" ++ n.local_name)
              (some { pfx := some p, uri := ns })])]
        simp
/-- `serializeContent` only appends to the sink. -/
theorem serializeContent_acc (c : List ElemContent) (sink : List WriterEvent) :
    serializeContent c sink = sink ++ serializeContent c [] := by
  match c with
  | [] => simp [serializeContent]
  | .Text t :: rest =>
    simp only [serializeContent]
    rw [serializeContent_acc rest (sink ++ [WriterEvent.characters t]),
      serializeContent_acc rest ([] ++ [WriterEvent.characters t])]
    simp
  | .Child child :: rest =>
    simp only [serializeContent]
    rw [serialize_acc child sink,
      serializeContent_acc rest (sink ++ child.serialize []),
      serializeContent_acc rest (child.serialize [])]
    simp
end

/-- Rebuilding an element from its projections is the identity. -/
theorem Element.eta (e : Element) : Element.mk e.name e.content = e := by
  cases e with
  | mk n c => rfl

/-- Dropping the `"p:"` of a qualified tag recovers the local name. -/
theorem drop_qualified (p l : String) : (p ++ ":" ++ l).drop (p.length + 1) = l := by
  apply String.ext
  rw [String.drop_eq]
  show ((p ++ ":" ++ l).data.drop (p.length + 1)) = l.data
  rw [String.data_append, String.data_append]
  have hd : (":" : String).data = [':'] := rfl
  have h : p.length + 1 = (p.data ++ (":" : String).data).length := by
    rw [hd, List.length_append]
    rfl
  rw [show p.data ++ (":" : String).data ++ l.data =
    (p.data ++ (":" : String).data) ++ l.data from rfl]
  rw [h, List.drop_left]

/-- The reader's view of a name is `PartialEq`-equal to the name itself. -/
theorem peq_readerView (n : Name) : Name.peq (readerView n) n = true := by
  cases h : n.namespace_uri <;> simp [readerView, h, Name.peq]

/-- The serializer's output shape: start directive, content, end directive. -/
theorem serialize_shape (n : Name) (c : List ElemContent) :
    Element.serialize (.mk n c) [] =
      startEventOf n :: (serializeContent c [] ++ [WriterEvent.endElement]) := by
  cases hns : n.namespace_uri with
  | none =>
    simp only [Element.serialize, hns, startEventOf]
    rw [serializeContent_acc c ([] ++ [WriterEvent.startElement n.local_name none])]
    simp
  | some ns =>
    cases hp : n.pfx with
    | none =>
      simp only [Element.serialize, hns, hp, startEventOf]
      rw [serializeContent_acc c
        ([] ++ [WriterEvent.startElement n.local_name (some { pfx := none, uri := ns })])]
      simp
    | some p =>
      simp only [Element.serialize, hns, hp, startEventOf]
      rw [serializeContent_acc c
        ([] ++ [WriterEvent.startElement (p ++ ":" ++ n.local_name)
          (some { pfx := some p, uri := ns })])]
      simp

/-- A leading `Text` item serializes to one characters directive. -/
theorem sc_text_shape (t : String) (rest : List ElemContent) :
    serializeContent (.Text t :: rest) [] =
      WriterEvent.characters t :: serializeContent rest [] := by
  simp only [serializeContent]
  rw [serializeContent_acc rest ([] ++ [WriterEvent.characters t])]
  simp

/-- A leading `Child` item serializes to the child's directives. -/
theorem sc_child_shape (child : Element) (rest : List ElemContent) :
    serializeContent (.Child child :: rest) [] =
      child.serialize [] ++ serializeContent rest [] := by
  simp only [serializeContent]
  rw [serializeContent_acc rest (child.serialize [])]

/-- Transporting the start directive of a name delivers the reader's view of
that name and opens it in the emitter bookkeeping. -/
theorem transport_startEventOf (n : Name) (rest : List WriterEvent) (pending : List Name) :
    transport (startEventOf n :: rest) pending =
      .startElement (readerView n) :: transport rest (readerView n :: pending) := by
  cases n with
  | mk l nss pf =>
    cases nss with
    | none => simp [startEventOf, transport, readName, readerView]
    | some ns =>
      cases pf with
      | none => simp [startEventOf, transport, readName, readerView]
      | some p => simp [startEventOf, transport, readName, readerView, drop_qualified]

mutual
/-- Transporting the serializer output of an element yields its reader-event
sequence, leaving any following directives and the emitter bookkeeping
untouched (the output is balanced). -/
theorem transport_serialize (e : Element) (rest : List WriterEvent) (pending : List Name) :
    transport (e.serialize [] ++ rest) pending = readerEvents e ++ transport rest pending := by
  cases e with
  | mk n c =>
    rw [serialize_shape]
    show transport (startEventOf n :: ((serializeContent c [] ++ [WriterEvent.endElement]) ++ rest)) pending = _
    rw [transport_startEventOf]
    rw [List.append_assoc, transport_serializeContent c ([WriterEvent.endElement] ++ rest) (readerView n :: pending)]
    show _ = ReaderEvent.startElement (readerView n) ::
      ((readerEventsContent c ++ [ReaderEvent.endElement (readerView n)]) ++ transport rest pending)
    rw [List.append_assoc]
    rfl
/-- Transporting the serializer output of a content list yields its
reader-event sequence. -/
theorem transport_serializeContent (c : List ElemContent) (rest : List WriterEvent) (pending : List Name) :
    transport (serializeContent c [] ++ rest) pending =
      readerEventsContent c ++ transport rest pending := by
  match c with
  | [] =>
    show transport ([] ++ rest) pending = [] ++ transport rest pending
    rfl
  | .Text t :: rest2 =>
    rw [sc_text_shape]
    show ReaderEvent.characters t :: transport (serializeContent rest2 [] ++ rest) pending = _
    rw [transport_serializeContent rest2 rest pending]
    rfl
  | .Child child :: rest2 =>
    rw [sc_child_shape, List.append_assoc,
      transport_serialize child (serializeContent rest2 [] ++ rest) pending,
      transport_serializeContent rest2 rest pending]
    show _ = (readerEvents child ++ readerEventsContent rest2) ++ transport rest pending
    rw [List.append_assoc]
end

mutual
/-- Feeding an element's reader events to the parser loop, with a non-empty
working stack, appends the parsed element (names as the reader delivers them)
as a child of the stack top. -/
theorem runEvents_readerEvents (e : Element) (rest : List ReaderEvent)
    (top : Element) (tail : List Element) (r : Option Element) :
    runEvents (readerEvents e ++ rest) { elem_stack := top :: tail, ret := r } =
      runEvents rest { elem_stack := top.push_child (rdElem e) :: tail, ret := r } := by
  cases e with
  | mk n c =>
    show runEvents (ReaderEvent.startElement (readerView n) ::
      ((readerEventsContent c ++ [ReaderEvent.endElement (readerView n)]) ++ rest)) _ = _
    rw [show runEvents (ReaderEvent.startElement (readerView n) ::
        ((readerEventsContent c ++ [ReaderEvent.endElement (readerView n)]) ++ rest))
        { elem_stack := top :: tail, ret := r } =
      runEvents ((readerEventsContent c ++ [ReaderEvent.endElement (readerView n)]) ++ rest)
        { elem_stack := Element.mk (readerView n) [] :: top :: tail, ret := r } from rfl]
    rw [List.append_assoc,
      runEvents_readerEventsContent c ([ReaderEvent.endElement (readerView n)] ++ rest)
        (Element.mk (readerView n) []) (top :: tail) r]
    show runEvents (ReaderEvent.endElement (readerView n) :: rest)
      { elem_stack := Element.mk (readerView n) ([] ++ rdContent c) :: top :: tail, ret := r } = _
    simp only [List.nil_append]
    show (match processEvent
        { elem_stack := Element.mk (readerView n) (rdContent c) :: top :: tail, ret := r }
        (ReaderEvent.endElement (readerView n)) with
      | .next st2 => runEvents rest st2
      | .panicked msg => StepResult.panicked msg) = _
    rw [show processEvent
        { elem_stack := Element.mk (readerView n) (rdContent c) :: top :: tail, ret := r }
        (ReaderEvent.endElement (readerView n)) =
      .next { elem_stack := top.push_child (Element.mk (readerView n) (rdContent c)) :: tail,
              ret := r } by
      simp [processEvent, removeNearest, Element.name, Name.peq_refl]]
    rfl
/-- Feeding a content list's reader events to the parser loop appends the
parsed items, in order, to the content of the stack top. -/
theorem runEvents_readerEventsContent (c : List ElemContent) (rest : List ReaderEvent)
    (cur : Element) (tail : List Element) (r : Option Element) :
    runEvents (readerEventsContent c ++ rest) { elem_stack := cur :: tail, ret := r } =
      runEvents rest
        { elem_stack := Element.mk cur.name (cur.content ++ rdContent c) :: tail, ret := r } := by
  match c with
  | [] =>
    show runEvents rest { elem_stack := cur :: tail, ret := r } = _
    rw [show rdContent [] = [] from rfl, List.append_nil, Element.eta]
  | .Text t :: rest2 =>
    show runEvents (ReaderEvent.characters t :: (readerEventsContent rest2 ++ rest)) _ = _
    rw [show runEvents (ReaderEvent.characters t :: (readerEventsContent rest2 ++ rest))
        { elem_stack := cur :: tail, ret := r } =
      runEvents (readerEventsContent rest2 ++ rest)
        { elem_stack := cur.push_text t :: tail, ret := r } from rfl]
    rw [runEvents_readerEventsContent rest2 rest (cur.push_text t) tail r]
    simp [Element.push_text, Element.name, Element.content, rdContent]
  | .Child child :: rest2 =>
    show runEvents ((readerEvents child ++ readerEventsContent rest2) ++ rest) _ = _
    rw [List.append_assoc,
      runEvents_readerEvents child (readerEventsContent rest2 ++ rest) cur tail r,
      runEvents_readerEventsContent rest2 rest (cur.push_child (rdElem child)) tail r]
    simp [Element.push_child, Element.name, Element.content, rdContent]
end

/-- Feeding an element's reader events to the parser from the initial state
records the parsed element as the root. -/
theorem runEvents_readerEvents_root (e : Element) :
    runEvents (readerEvents e) { elem_stack := [], ret := none } =
      .next { elem_stack := [], ret := some (rdElem e) } := by
  cases e with
  | mk n c =>
    show runEvents (ReaderEvent.startElement (readerView n) ::
      (readerEventsContent c ++ [ReaderEvent.endElement (readerView n)])) _ = _
    rw [show runEvents (ReaderEvent.startElement (readerView n) ::
        (readerEventsContent c ++ [ReaderEvent.endElement (readerView n)]))
        { elem_stack := [], ret := none } =
      runEvents (readerEventsContent c ++ [ReaderEvent.endElement (readerView n)])
        { elem_stack := [Element.mk (readerView n) []], ret := none } from rfl]
    rw [runEvents_readerEventsContent c [ReaderEvent.endElement (readerView n)]
      (Element.mk (readerView n) []) [] none]
    show (match processEvent
        { elem_stack := [Element.mk (readerView n) (Element.content (Element.mk (readerView n) []) ++ rdContent c)], ret := none }
        (ReaderEvent.endElement (readerView n)) with
      | .next st2 => runEvents [] st2
      | .panicked msg => StepResult.panicked msg) = _
    simp [processEvent, removeNearest, Element.name, Element.content, Name.peq_refl, runEvents, rdElem]

mutual
/-- The parsed image of an element is structurally equal to the original. -/
theorem structEq_rdElem (e : Element) : structEq (rdElem e) e = true := by
  cases e with
  | mk n c =>
    show structEq (.mk (readerView n) (rdContent c)) (.mk n c) = true
    simp [structEq, peq_readerView, contentEq_rdContent c]
/-- The parsed image of a content list is pointwise structurally equal. -/
theorem contentEq_rdContent (c : List ElemContent) : contentEq (rdContent c) c = true := by
  match c with
  | [] => rfl
  | .Text t :: rest =>
    show contentEq (.Text t :: rdContent rest) (.Text t :: rest) = true
    simp [contentEq, contentEq_rdContent rest]
  | .Child child :: rest =>
    show contentEq (.Child (rdElem child) :: rdContent rest) (.Child child :: rest) = true
    simp [contentEq, structEq_rdElem child, contentEq_rdContent rest]
end

/-- Claim C5: the serializer's start-element directive follows the 3-way rule
on `(namespace, prefix)` — both present: `"prefix:local"` tag with the
prefix-to-namespace binding declared; namespace only: unqualified local name
with the default (unprefixed) binding; no namespace: unqualified local name
with no declaration — then the content items in document order (`Text` as
character data, `Child` recursively) and a final end-element directive. -/
theorem c5_serialize_three_way_rule (l ns p : String) (pAny : Option String)
    (content : List ElemContent) (t : String) (child : Element)
    (rest : List ElemContent) :
    (Element.serialize
        (.mk { local_name := l, namespace_uri := some ns, pfx := some p } content) [] =
      WriterEvent.startElement (p ++ ":" ++ l) (some { pfx := some p, uri := ns }) ::
        (serializeContent content [] ++ [WriterEvent.endElement])) ∧
    (Element.serialize
        (.mk { local_name := l, namespace_uri := some ns, pfx := none } content) [] =
      WriterEvent.startElement l (some { pfx := none, uri := ns }) ::
        (serializeContent content [] ++ [WriterEvent.endElement])) ∧
    (Element.serialize
        (.mk { local_name := l, namespace_uri := none, pfx := pAny } content) [] =
      WriterEvent.startElement l none ::
        (serializeContent content [] ++ [WriterEvent.endElement])) ∧
    (serializeContent (.Text t :: rest) [] =
      WriterEvent.characters t :: serializeContent rest []) ∧
    (serializeContent (.Child child :: rest) [] =
      child.serialize [] ++ serializeContent rest []) := by
  refine ⟨?_, ?_, ?_, sc_text_shape t rest, sc_child_shape child rest⟩
  · rw [serialize_shape]
    rfl
  · rw [serialize_shape]
    rfl
  · rw [serialize_shape]
    cases pAny <;> rfl

/-- Claim C2: for every (attribute-free) element tree, parsing the serialized
form — the serializer's directives carried back as reader events by the
collaborator transport — succeeds and yields an element structurally equal to
the original: `PartialEq`-equal names (same `local_name` and `namespace`),
the same ordered content sequence, the same text runs. -/
theorem c2_round_trip (e : Element) :
    Element.from_stream ((transport (e.serialize []) []).map Except.ok) =
      .ok (rdElem e) ∧
    structEq (rdElem e) e = true := by
  have htr : transport (e.serialize []) [] = readerEvents e := by
    have h := transport_serialize e [] []
    simpa [transport] using h
  refine ⟨?_, structEq_rdElem e⟩
  rw [htr]
  show Element.from_stream.go _ _ = _
  rw [from_stream_go_pure, runEvents_readerEvents_root]
  rfl

end SulfateXml

